import Mathlib

/-!
Verification of the `watcher` repository (Python): the ignore-pattern
matcher (`src/watcher/ignore.py`) and the change-aggregation / git
orchestration engine (`src/watcher/core.py`), shallowly embedded in Lean.

Paths are modelled as strings of `/`-separated components; `Path.resolve`
is the identity (all paths in theorems are already absolute and resolved).
Git and the filesystem are oracles: a `Git` structure maps an argument
vector and a working directory to a completed-process result, and the
side-effecting functions of `core.py` are embedded as pure functions that
return the list of external effects (git invocations, notifications) they
perform, in order.
-/

namespace Watcher

/-! ### Character and path utilities (Python `str.strip`, `str.split('/')`,
`'/'.join`, `pathlib.PurePath.name`) -/

/-- ASCII whitespace as recognised by Python `str.strip()` (the inputs we
model are ASCII). -/
def isSpaceChar (c : Char) : Bool :=
  c == ' ' || c == '\t' || c == '\n' || c == '\r' || c == '\x0b' || c == '\x0c'

/-- Right-strip whitespace. -/
def trimRight (l : List Char) : List Char :=
  (l.reverse.dropWhile isSpaceChar).reverse

/-- Python `str.strip()`. -/
def trimChars (l : List Char) : List Char :=
  trimRight (l.dropWhile isSpaceChar)

/-- Python `str.strip()` on a `String`. -/
def stripStr (s : String) : String :=
  String.mk (trimChars s.data)

/-- Python `str.split(sep)` for a one-character separator: keeps empty
pieces, never returns an empty list. -/
def splitOnChar (sep : Char) : List Char → List (List Char)
  | [] => [[]]
  | c :: rest =>
    if c == sep then
      [] :: splitOnChar sep rest
    else
      match splitOnChar sep rest with
      | [] => [[c]]
      | p :: ps => (c :: p) :: ps

/-- Python `'/'.join(pieces)` (inverse of `splitOnChar '/'`). -/
def joinChar (sep : Char) : List (List Char) → List Char
  | [] => []
  | [p] => p
  | p :: ps => p ++ sep :: joinChar sep ps

/-- `str.split('/')` of a path. -/
def pathParts (cs : List Char) : List (List Char) := splitOnChar '/' cs

/-- `pathlib.PurePath(p).name`: the final path component (the paths we
model have no trailing slash and no `.`/`..` components). -/
def pathName (cs : List Char) : List Char :=
  ((pathParts cs).reverse.headD [])

def pathNameStr (s : String) : String := String.mk (pathName s.data)

/-! ### Shell glob matching (model of Python `fnmatch.fnmatch` on POSIX,
where `os.path.normcase` is the identity).  `fnmatch` translates the
pattern into a regular expression (`*` → `.*`, `?` → `.`, `[...]` → a
character class, everything else a literal) and matches the whole name
against it; we mirror that by compiling the pattern into a token list and
matching the token list against the name. -/

/-- One member of a `[...]` character class: a single character or a
`a-b` range. -/
inductive ClassItem where
  | single : Char → ClassItem
  | range : Char → Char → ClassItem
deriving DecidableEq

/-- Character-class membership. -/
def memClass (c : Char) : List ClassItem → Bool
  | [] => false
  | ClassItem.single a :: rest => c == a || memClass c rest
  | ClassItem.range a b :: rest => (decide (a ≤ c) && decide (c ≤ b)) || memClass c rest

/-- Split the part of the pattern following `[` at the closing `]`,
returning (class body, remainder after `]`), or `none` when there is no
closing `]` (in which case `fnmatch` treats the `[` as a literal). -/
def splitClassScan (ps : List Char) : Option (List Char × List Char) :=
  match ps.dropWhile (fun c => c != ']') with
  | [] => none
  | _ :: r => some (ps.takeWhile (fun c => c != ']'), r)

/-- A `]` directly after `[` (or after `[!`) is a literal member of the
class, exactly as in `fnmatch.translate`. -/
def splitClassBody : List Char → Option (List Char × List Char)
  | ']' :: t => (splitClassScan t).map (fun p => (']' :: p.1, p.2))
  | t => splitClassScan t

/-- Parse the pattern following `[`: negation flag, class body, remainder. -/
def splitClass : List Char → Option (Bool × List Char × List Char)
  | '!' :: t => (splitClassBody t).map (fun p => (true, p.1, p.2))
  | t => (splitClassBody t).map (fun p => (false, p.1, p.2))

/-- Class-body items: `a-b` is a range, a `-` at the start or end is a
literal, as in the regular-expression class `fnmatch.translate` emits. -/
def parseItems : List Char → List ClassItem
  | [] => []
  | a :: '-' :: b :: rest => ClassItem.range a b :: parseItems rest
  | a :: rest => ClassItem.single a :: parseItems rest

/-- A compiled glob token (one regular-expression atom of
`fnmatch.translate`'s output). -/
inductive GlobTok where
  | lit : Char → GlobTok
  | star : GlobTok
  | anyChar : GlobTok
  | cls : Bool → List ClassItem → GlobTok
deriving DecidableEq

/-- Compile a glob pattern to tokens, as `fnmatch.translate` compiles it
to a regular expression.  The fuel argument only bounds the recursion
depth: every step consumes at least one pattern character, so
`fuel = ps.length` (as supplied by `compileGlob`) never runs out. -/
def compileGlobAux : Nat → List Char → List GlobTok
  | _, [] => []
  | 0, _ => []
  | fuel + 1, '*' :: ps => GlobTok.star :: compileGlobAux fuel ps
  | fuel + 1, '?' :: ps => GlobTok.anyChar :: compileGlobAux fuel ps
  | fuel + 1, '[' :: ps =>
    match splitClass ps with
    | some (neg, content, rest) => GlobTok.cls neg (parseItems content) :: compileGlobAux fuel rest
    | none => GlobTok.lit '[' :: compileGlobAux fuel ps
  | fuel + 1, c :: ps => GlobTok.lit c :: compileGlobAux fuel ps

def compileGlob (ps : List Char) : List GlobTok := compileGlobAux ps.length ps

/-- Does a single non-`*` token match a character? -/
def tokMatches (t : GlobTok) (c : Char) : Bool :=
  match t with
  | GlobTok.lit a => c == a
  | GlobTok.star => true
  | GlobTok.anyChar => true
  | GlobTok.cls neg items => if neg then !(memClass c items) else memClass c items

/-- All suffixes of a list, longest first (the list itself down to `[]`). -/
def suffixes : List Char → List (List Char)
  | [] => [[]]
  | c :: rest => (c :: rest) :: suffixes rest

/-- Anchored match of a name against compiled glob tokens (as
`re.match(..., name)` against a pattern ending in `\Z`): `star` (the
regular expression `.*`) matches when the rest of the tokens match some
suffix of the name. -/
def globMatch : List GlobTok → List Char → Bool
  | [], name => name.isEmpty
  | GlobTok.star :: ts, name => (suffixes name).any (fun ns => globMatch ts ns)
  | t :: ts, name =>
    match name with
    | [] => false
    | c :: ns => tokMatches t c && globMatch ts ns

/-- `fnmatch.fnmatch(name, pat)` on POSIX. -/
def fnmatch (name pat : List Char) : Bool :=
  globMatch (compileGlob pat) name

/-! ### The ignore matcher (`src/watcher/ignore.py`) -/

/-- `IgnoreManager._matches_pattern(file_path, pattern)`: strip the
pattern; blank lines, `#` comments and `!` negation patterns never match;
a pattern with a trailing `/` is a directory pattern matched (via
`fnmatch`) against every slash-joined prefix `'/'.join(parts[:i+1])` of
the path's components; any other pattern is matched against the full path
and against its basename. -/
def matches_pattern (file_path pattern : String) : Bool :=
  let pat := trimChars pattern.data
  if pat.isEmpty then false
  else if pat.headD ' ' == '#' then false
  else if pat.headD ' ' == '!' then false
  else if pat.getLastD ' ' == '/' then
    let pat1 := pat.dropLast
    let parts := pathParts file_path.data
    (List.range parts.length).any (fun i => fnmatch (joinChar '/' (parts.take (i + 1))) pat1)
  else
    fnmatch file_path.data pat || fnmatch (pathName file_path.data) pat

/-- The state of an `IgnoreManager` after `__init__`: the watch
directory, the combined `all_patterns` list (global + config +
additional), the `respect_gitignore` flag, and — since walking ancestor
directories for `.gitignore` files reads the filesystem — an oracle for
`_matches_gitignore`. -/
structure IgnoreManager where
  watch_dir : String
  all_patterns : List String
  respect_gitignore : Bool
  gitignoreMatch : String → Bool

/-- `Path(p).relative_to(base)` on already-resolved absolute paths:
`some` of the component list after `base` when `base` is a component
prefix of `p`, else `none` (Python raises `ValueError`). -/
def relComponents (base p : String) : Option (List (List Char)) :=
  let bs := pathParts base.data
  let ps := pathParts p.data
  if bs.isPrefixOf ps then some (ps.drop bs.length) else none

def relPath (base p : String) : Option String :=
  (relComponents base p).map (fun l => String.mk (joinChar '/' l))

/-- `IgnoreManager.should_ignore`: a path outside the watch directory is
ignored; otherwise the path relative to the watch directory is tested
against every combined pattern, then (if `respect_gitignore`) against the
ancestor `.gitignore` files. -/
def should_ignore (m : IgnoreManager) (file_path : String) : Bool :=
  match relPath m.watch_dir file_path with
  | none => true
  | some rel =>
    m.all_patterns.any (fun pat => matches_pattern rel pat) ||
      (m.respect_gitignore && m.gitignoreMatch file_path)

/-! ### The change-aggregation engine (`src/watcher/core.py`,
`GitCommitHandler`).

Python dictionaries (`pending_commits`, `commit_timers`) are association
lists with unique keys; Python sets of paths are duplicate-free lists.
`threading.Timer` is a record of when it was armed, its delay, and
whether it has been cancelled; an armed, uncancelled timer fires at
`armedAt + delay`.  All mutations below happen under `timer_lock` in the
source, so they are modelled as sequential state transformations. -/

/-- Association-list lookup (Python `d[k]` / `k in d`). -/
def alookup {α : Type} : List (String × α) → String → Option α
  | [], _ => none
  | (k, v) :: rest, key => if k = key then some v else alookup rest key

/-- Association-list update (Python `d[k] = v`). -/
def aset {α : Type} : List (String × α) → String → α → List (String × α)
  | [], key, v => [(key, v)]
  | (k, w) :: rest, key, v =>
    if k = key then (k, v) :: rest else (k, w) :: aset rest key v

/-- Association-list removal (Python `del d[k]`, no-op when absent). -/
def aerase {α : Type} : List (String × α) → String → List (String × α)
  | [], _ => []
  | (k, w) :: rest, key => if k = key then rest else (k, w) :: aerase rest key

/-- Python `set.add`. -/
def insertStr (s : List String) (x : String) : List String :=
  if x ∈ s then s else x :: s

/-- The configuration fields `GitCommitHandler` reads. -/
structure WatcherConfig where
  name : String
  commit_delay : Nat
  fetch_interval : Nat
  enable_notifications : Bool
  notify_on_commit : Bool
  notify_on_remote_changes : Bool
  auto_push : Bool

/-- A `threading.Timer`: armed at `armedAt` with delay `delay`; fires at
`armedAt + delay` unless cancelled first. -/
structure TimerH where
  armedAt : Nat
  delay : Nat
  cancelled : Bool
deriving DecidableEq

/-- The immutable part of a `GitCommitHandler` after `__init__`. -/
structure Handler where
  config : WatcherConfig
  repo_dir : String
  submodules : List String
  ignore : IgnoreManager

/-- The mutable state of a `GitCommitHandler`: `pending_commits`,
`commit_timers` and `fetch_timer`. -/
structure WatcherState where
  pending_commits : List (String × List String)
  commit_timers : List (String × TimerH)
  fetch_timer : Option TimerH
deriving DecidableEq

/-- `Path(p).is_relative_to(dir)` on resolved paths: `dir`'s components
are a prefix of `p`'s. -/
def isRelativeToDir (p dir : String) : Bool :=
  (pathParts dir.data).isPrefixOf (pathParts p.data)

/-- `_get_submodule_for_file`: the first submodule (in discovery order)
containing the path. -/
def get_submodule_for_file (h : Handler) (p : String) : Option String :=
  h.submodules.find? (fun s => isRelativeToDir p s)

/-- `_is_in_submodule`. -/
def is_in_submodule (h : Handler) (p : String) : Bool :=
  h.submodules.any (fun s => isRelativeToDir p s)

/-- The `dir_key` a change at `p` is bucketed under: the containing
submodule if any, else the root repository. -/
def classifyKey (h : Handler) (p : String) : String :=
  match get_submodule_for_file h p with
  | some s => s
  | none => h.repo_dir

/-- `_handle_file_change(file_path, change_type)` at time `now`
(`change_type` is unused by the source beyond logging).  Under
`timer_lock`: drop the event if ignored; otherwise add the path to the
target's pending set, cancel the existing timer for the target if any,
and arm a fresh timer with the configured `commit_delay`.  The second
component is the timer that was cancelled, if any (its `threading.Timer`
object will never fire). -/
def handle_file_change (h : Handler) (st : WatcherState) (file_path : String) (now : Nat) :
    WatcherState × Option TimerH :=
  if should_ignore h.ignore file_path then (st, none)
  else
    let dir_key := classifyKey h file_path
    let oldSet := (alookup st.pending_commits dir_key).getD []
    let pending1 := aset st.pending_commits dir_key (insertStr oldSet file_path)
    let cancelledTimer := alookup st.commit_timers dir_key
    let timers1 := aset st.commit_timers dir_key ⟨now, h.config.commit_delay, false⟩
    ({ st with pending_commits := pending1, commit_timers := timers1 }, cancelledTimer)

/-- A sequence of change events (path, arrival time), processed in order;
also collects every timer that was cancelled along the way. -/
def processEvents (h : Handler) : WatcherState → List (String × Nat) → WatcherState × List TimerH
  | st, [] => (st, [])
  | st, (p, t) :: rest =>
    let r1 := handle_file_change h st p t
    let r2 := processEvents h r1.1 rest
    (r2.1, r1.2.toList ++ r2.2)

/-- A filesystem event as delivered by watchdog: `dest_path` is `none`
when the event object has no `dest_path` attribute. -/
structure FSEvent where
  src_path : String
  dest_path : Option String
  is_directory : Bool

/-- `on_moved`: directory events are discarded; otherwise the event's
`dest_path`, when present, is fed to `_handle_file_change`; an event
without `dest_path` is dropped. -/
def on_moved (h : Handler) (st : WatcherState) (ev : FSEvent) (now : Nat) :
    WatcherState × Option TimerH :=
  if ev.is_directory then (st, none)
  else
    match ev.dest_path with
    | none => (st, none)
    | some d => handle_file_change h st d now

/-- `start_fetch_timer`: cancel any existing fetch timer and arm a fresh
one with `fetch_interval`. -/
def start_fetch_timer (h : Handler) (st : WatcherState) (now : Nat) : WatcherState :=
  { st with fetch_timer := some ⟨now, h.config.fetch_interval, false⟩ }

/-- `stop()`: cancel every armed per-directory commit timer and clear the
timer map, and cancel the fetch timer.  `pending_commits` is not
touched. -/
def stop (st : WatcherState) : WatcherState :=
  { pending_commits := st.pending_commits,
    commit_timers := [],
    fetch_timer := st.fetch_timer.map (fun t => { t with cancelled := true }) }

/-- A per-directory commit timer is armed (can still fire). -/
def commitTimerArmed (st : WatcherState) (key : String) : Bool :=
  (alookup st.commit_timers key).isSome

/-- The fetch timer is armed (can still fire). -/
def fetchTimerArmed (st : WatcherState) : Bool :=
  match st.fetch_timer with
  | some t => !t.cancelled
  | none => false

/-! ### Git operations and effect traces.

`_run_git_command` shells out to git; we model git as an oracle mapping
an argument vector and a working directory to a completed-process
result.  Each side-effecting method of `GitCommitHandler` is embedded as
a pure function returning the ordered list of external effects (git
invocations and desktop notifications) it performs. -/

/-- A `subprocess.CompletedProcess[str]`. -/
structure GitResult where
  returncode : Int
  stdout : String
  stderr : String
deriving DecidableEq

/-- The git collaborator: results of running an argument vector in a
working directory. -/
structure Git where
  run : List String → String → GitResult

/-- An observable external effect. -/
inductive Effect where
  | gitCall : List String → String → Effect
  | notify : String → String → Effect
deriving DecidableEq

/-! #### Commit-message synthesis (`_create_squashed_commit_message`) -/

/-- Decimal digits of `n` (fuelled; `fuel = n + 1` always suffices). -/
def natDigitsAux : Nat → Nat → List Char
  | 0, _ => []
  | fuel + 1, n =>
    if n < 10 then [Nat.digitChar n]
    else natDigitsAux fuel (n / 10) ++ [Nat.digitChar (n % 10)]

/-- Python `str(n)` for a natural number. -/
def natStr (n : Nat) : String := String.mk (natDigitsAux (n + 1) n)

/-- Python `', '.join(parts)`. -/
def joinComma : List String → String
  | [] => ""
  | [s] => s
  | s :: rest => s ++ ", " ++ joinComma rest

/-- `line.startswith(xy)` for a two-character status code. -/
def startsWith2 (l : List Char) (a b : Char) : Bool :=
  match l with
  | x :: y :: _ => x == a && y == b
  | _ => false

/-- The status lines the source inspects:
`status_result.stdout.strip().split('\n')`, each line stripped, empty
lines dropped. -/
def statusLines (stdout : String) : List (List Char) :=
  ((splitOnChar '\n' (trimChars stdout.data)).map trimChars).filter (fun l => !l.isEmpty)

def countCreated (lines : List (List Char)) : Nat :=
  lines.countP (fun l => startsWith2 l 'A' ' ')

def countModified (lines : List (List Char)) : Nat :=
  lines.countP (fun l => startsWith2 l 'M' ' ' || startsWith2 l ' ' 'M')

def countDeleted (lines : List (List Char)) : Nat :=
  lines.countP (fun l => startsWith2 l 'D' ' ')

def countRenamed (lines : List (List Char)) : Nat :=
  lines.countP (fun l => startsWith2 l 'R' ' ')

/-- `f"{verb} {n} file{'s' if n != 1 else ''}"`. -/
def countPart (verb : String) (n : Nat) : String :=
  verb ++ " " ++ natStr n ++ " file" ++ (if n ≠ 1 then "s" else "")

/-- `_create_squashed_commit_message` as a function of the
`git status --porcelain` result (the `changed_files` parameter of the
source is unused by its body; the `except` branch, reachable only when
the process runner itself throws, is not modelled). -/
def create_squashed_commit_message (status_result : GitResult) : String :=
  if status_result.returncode ≠ 0 then "Update files"
  else
    let lines := statusLines status_result.stdout
    if lines.isEmpty then "Update files"
    else
      let created := countCreated lines
      let modified := countModified lines
      let deleted := countDeleted lines
      let renamed := countRenamed lines
      let parts :=
        (if created > 0 then [countPart "created" created] else []) ++
        (if modified > 0 then [countPart "modified" modified] else []) ++
        (if deleted > 0 then [countPart "deleted" deleted] else []) ++
        (if renamed > 0 then [countPart "renamed" renamed] else [])
      if !parts.isEmpty then "Auto-commit: " ++ joinComma parts
      else "Auto-commit: updated files"

/-! #### Commit, push, notify -/

/-- `_send_commit_notification`. -/
def send_commit_notification (h : Handler) (commit_message : String) : Effect :=
  Effect.notify ("📦 " ++ h.config.name ++ " Commit") commit_message

/-- `_push_changes` (the `repo_name` argument only affects logging). -/
def push_changes (repo_dir : String) : List Effect :=
  [Effect.gitCall ["git", "push"] repo_dir]

/-- `str(submodule_dir.relative_to(repo_dir))` (callers only pass
directories under `repo_dir`). -/
def relPathStrD (base p : String) : String :=
  match relComponents base p with
  | some l => String.mk (joinChar '/' l)
  | none => p

/-- `_commit_submodule_update(submodule_dir)`: stage the submodule's
relative path in the root; abort on stage failure; if
`git diff --cached --quiet` exits 0 (nothing staged) do nothing more;
otherwise commit `Update <name> submodule` in the root and, on success,
notify and (if `auto_push`) push. -/
def commit_submodule_update (h : Handler) (git : Git) (submodule_dir : String) : List Effect :=
  let rel := relPathStrD h.repo_dir submodule_dir
  let stageCmd : List String := ["git", "add", rel]
  let stage := git.run stageCmd h.repo_dir
  if stage.returncode ≠ 0 then [Effect.gitCall stageCmd h.repo_dir]
  else
    let checkCmd : List String := ["git", "diff", "--cached", "--quiet"]
    let check := git.run checkCmd h.repo_dir
    if check.returncode = 0 then
      [Effect.gitCall stageCmd h.repo_dir, Effect.gitCall checkCmd h.repo_dir]
    else
      let msg := "Update " ++ pathNameStr submodule_dir ++ " submodule"
      let commitCmd : List String := ["git", "commit", "-m", msg]
      let commit := git.run commitCmd h.repo_dir
      [Effect.gitCall stageCmd h.repo_dir, Effect.gitCall checkCmd h.repo_dir,
        Effect.gitCall commitCmd h.repo_dir] ++
      (if commit.returncode = 0 then
        (if h.config.enable_notifications && h.config.notify_on_commit then
          [send_commit_notification h msg] else []) ++
        (if h.config.auto_push then push_changes h.repo_dir else [])
      else [])

/-- `_commit_squashed_submodule`: stage everything in the submodule;
abort on stage failure; read `git status --porcelain` to synthesise the
message; commit; on success (optionally) push the submodule, then always
run the root reference-update follow-up; on commit failure return without
the follow-up. -/
def commit_squashed_submodule (h : Handler) (git : Git) (submodule_dir : String)
    (_changed_files : List String) : List Effect :=
  let stage := git.run ["git", "add", "."] submodule_dir
  if stage.returncode ≠ 0 then [Effect.gitCall ["git", "add", "."] submodule_dir]
  else
    let statusRes := git.run ["git", "status", "--porcelain"] submodule_dir
    let msg := create_squashed_commit_message statusRes
    let commitCmd : List String := ["git", "commit", "-m", msg]
    let commit := git.run commitCmd submodule_dir
    [Effect.gitCall ["git", "add", "."] submodule_dir,
      Effect.gitCall ["git", "status", "--porcelain"] submodule_dir,
      Effect.gitCall commitCmd submodule_dir] ++
    (if commit.returncode = 0 then
      (if h.config.auto_push then push_changes submodule_dir else []) ++
      commit_submodule_update h git submodule_dir
    else [])

/-- `_commit_squashed_main_repo`: stage, synthesise message, commit; on
success notify (per settings) and (if `auto_push`) push `self.repo_dir`. -/
def commit_squashed_main_repo (h : Handler) (git : Git) (repo_dir : String)
    (_changed_files : List String) : List Effect :=
  let stage := git.run ["git", "add", "."] repo_dir
  if stage.returncode ≠ 0 then [Effect.gitCall ["git", "add", "."] repo_dir]
  else
    let statusRes := git.run ["git", "status", "--porcelain"] repo_dir
    let msg := create_squashed_commit_message statusRes
    let commitCmd : List String := ["git", "commit", "-m", msg]
    let commit := git.run commitCmd repo_dir
    [Effect.gitCall ["git", "add", "."] repo_dir,
      Effect.gitCall ["git", "status", "--porcelain"] repo_dir,
      Effect.gitCall commitCmd repo_dir] ++
    (if commit.returncode = 0 then
      (if h.config.enable_notifications && h.config.notify_on_commit then
        [send_commit_notification h msg] else []) ++
      (if h.config.auto_push then push_changes h.repo_dir else [])
    else [])

/-- `_execute_delayed_commit(dir_key)`: under `timer_lock`, return
immediately when `dir_key` has no pending entry; otherwise swap the
pending set out, drop the timer entry, and commit (submodule or main
repo) outside the lock. -/
def execute_delayed_commit (h : Handler) (git : Git) (st : WatcherState) (dir_key : String) :
    WatcherState × List Effect :=
  match alookup st.pending_commits dir_key with
  | none => (st, [])
  | some changed_files =>
    let st1 : WatcherState :=
      { st with pending_commits := aerase st.pending_commits dir_key,
                commit_timers := aerase st.commit_timers dir_key }
    if dir_key ∈ h.submodules then
      (st1, commit_squashed_submodule h git dir_key changed_files)
    else
      (st1, commit_squashed_main_repo h git dir_key changed_files)

/-- A commit timer for `key` firing at time `now`: possible only while
the timer is armed and uncancelled; it then runs
`_execute_delayed_commit`. -/
def fireCommitTimer (h : Handler) (git : Git) (st : WatcherState) (key : String) :
    Option (WatcherState × List Effect) :=
  match alookup st.commit_timers key with
  | none => none
  | some t => if t.cancelled then none else some (execute_delayed_commit h git st key)

/-! #### The remote-sync poller -/

/-- `_fetch_and_check_changes(repo_dir, repo_name)`: capture the local
`HEAD`; fetch; resolve the current branch (give up when any command
fails or the branch is empty); resolve `origin/<branch>`; when the two
heads differ, report `"<n> new commit(s)"` with `n` the output of
`git rev-list --count old..new` — every failing step yields no report.
Returns the report (if any) and the git calls made. -/
def fetch_and_check_changes (git : Git) (repo_dir : String) : Option String × List Effect :=
  let headCmd : List String := ["git", "rev-parse", "HEAD"]
  let headRes := git.run headCmd repo_dir
  let e1 := [Effect.gitCall headCmd repo_dir]
  if headRes.returncode ≠ 0 then (none, e1)
  else
    let old_head := stripStr headRes.stdout
    let fetchRes := git.run ["git", "fetch"] repo_dir
    let e2 := e1 ++ [Effect.gitCall ["git", "fetch"] repo_dir]
    if fetchRes.returncode ≠ 0 then (none, e2)
    else
      let branchRes := git.run ["git", "branch", "--show-current"] repo_dir
      let e3 := e2 ++ [Effect.gitCall ["git", "branch", "--show-current"] repo_dir]
      if branchRes.returncode ≠ 0 then (none, e3)
      else
        let current_branch := stripStr branchRes.stdout
        if current_branch = "" then (none, e3)
        else
          let remoteCmd : List String := ["git", "rev-parse", "origin/" ++ current_branch]
          let remoteRes := git.run remoteCmd repo_dir
          let e4 := e3 ++ [Effect.gitCall remoteCmd repo_dir]
          if remoteRes.returncode ≠ 0 then (none, e4)
          else
            let remote_head := stripStr remoteRes.stdout
            if old_head ≠ remote_head then
              let countCmd : List String :=
                ["git", "rev-list", "--count", old_head ++ ".." ++ remote_head]
              let countRes := git.run countCmd repo_dir
              let e5 := e4 ++ [Effect.gitCall countCmd repo_dir]
              if countRes.returncode = 0 then
                let commit_count := stripStr countRes.stdout
                (some (commit_count ++ " new commit" ++ (if commit_count ≠ "1" then "s" else "")),
                  e5)
              else (none, e5)
            else (none, e4)

/-- `_send_change_notification`. -/
def send_change_notification (h : Handler) (main_changes : Option String)
    (submodule_changes : List (String × String)) : List Effect :=
  (match main_changes with
   | some c =>
     [Effect.notify ("🔄 " ++ h.config.name ++ " Remote Changes") ("Main repo: " ++ c)]
   | none => []) ++
  submodule_changes.map (fun p =>
    Effect.notify ("🔄 " ++ h.config.name ++ " Remote Changes") (p.1 ++ ": " ++ p.2))

/-- `_periodic_fetch` at time `now`: check the main repo, then every
submodule in order (a failure in one target never aborts the cycle);
notify when anything changed and notifications are enabled; finally
re-arm the fetch timer via `start_fetch_timer`. -/
def periodic_fetch (h : Handler) (git : Git) (st : WatcherState) (now : Nat) :
    WatcherState × List Effect :=
  let mainR := fetch_and_check_changes git h.repo_dir
  let subRs := h.submodules.map (fun s => (s, fetch_and_check_changes git s))
  let submodule_changes :=
    subRs.filterMap (fun p => p.2.1.map (fun c => (pathNameStr p.1, c)))
  let notifEffs :=
    if (mainR.1.isSome || !submodule_changes.isEmpty) &&
        (h.config.enable_notifications && h.config.notify_on_remote_changes) then
      send_change_notification h mainR.1 submodule_changes
    else []
  (start_fetch_timer h st now,
    mainR.2 ++ (subRs.map (fun p => p.2.2)).flatten ++ notifEffs)

/-! #### Startup: committing pre-existing changes -/

/-- `_commit_existing_in_repo(repo_dir, repo_name)`: when
`git status --porcelain` succeeds with non-empty output, stage
everything and commit with the fixed message
`Auto-commit existing changes in <repo_name>`; on success notify (per
settings) and, only when `auto_push` is enabled, push — and for a
submodule also run the root reference-update follow-up. -/
def commit_existing_in_repo (h : Handler) (git : Git) (repo_dir repo_name : String) :
    List Effect :=
  let statusRes := git.run ["git", "status", "--porcelain"] repo_dir
  let e1 := [Effect.gitCall ["git", "status", "--porcelain"] repo_dir]
  if statusRes.returncode = 0 ∧ ¬(trimChars statusRes.stdout.data).isEmpty then
    let addRes := git.run ["git", "add", "."] repo_dir
    let e2 := e1 ++ [Effect.gitCall ["git", "add", "."] repo_dir]
    if addRes.returncode = 0 then
      let msg := "Auto-commit existing changes in " ++ repo_name
      let commitCmd : List String := ["git", "commit", "-m", msg]
      let commitRes := git.run commitCmd repo_dir
      let e3 := e2 ++ [Effect.gitCall commitCmd repo_dir]
      if commitRes.returncode = 0 then
        e3 ++
        (if h.config.enable_notifications && h.config.notify_on_commit then
          [send_commit_notification h msg] else []) ++
        (if h.config.auto_push then
          (if repo_dir = h.repo_dir then push_changes repo_dir
           else push_changes repo_dir ++ commit_submodule_update h git repo_dir)
         else [])
      else e3
    else e2
  else e1

/-- `_commit_existing_changes()`: the main repo first, then every
submodule in discovery order. -/
def commit_existing_changes (h : Handler) (git : Git) : List Effect :=
  commit_existing_in_repo h git h.repo_dir "main repo" ++
    (h.submodules.map (fun s =>
      commit_existing_in_repo h git s ("submodule " ++ pathNameStr s))).flatten

/-! ### Specification-side definitions used for refinement statements -/

/-- Modelled from the spec's words for directory patterns (what the
implemented directory matching actually is): a trailing-slash pattern
matches a path iff some cumulative slash-joined prefix of the path's
components glob-matches the pattern body. -/
def dirPatternMatches (file_path : String) (patBody : List Char) : Bool :=
  (List.range (pathParts file_path.data).length).any
    (fun i => fnmatch (joinChar '/' ((pathParts file_path.data).take (i + 1))) patBody)

/-- Modelled from the claim's words (C3): the non-zero categories joined
in the fixed order created, modified, deleted, renamed, `N file(s)` with
singular for count 1; `Auto-commit: updated files` when every category is
zero. -/
def specMessage (created modified deleted renamed : Nat) : String :=
  let parts :=
    (if created > 0 then [countPart "created" created] else []) ++
    (if modified > 0 then [countPart "modified" modified] else []) ++
    (if deleted > 0 then [countPart "deleted" deleted] else []) ++
    (if renamed > 0 then [countPart "renamed" renamed] else [])
  if !parts.isEmpty then "Auto-commit: " ++ joinComma parts
  else "Auto-commit: updated files"

/-- The pending paths recorded for a directory key. -/
def pendingPaths (st : WatcherState) (key : String) : List String :=
  (alookup st.pending_commits key).getD []

/-! ### Concrete fixtures used by witnesses and counterexamples -/

/-- An ignore manager with no patterns (gitignore disabled). -/
def mNone : IgnoreManager := ⟨"/w", [], false, fun _ => false⟩

/-- An ignore manager whose only pattern is the directory pattern `build/`. -/
def mBuild : IgnoreManager := ⟨"/w", ["build/"], false, fun _ => false⟩

/-- `mNone` rooted at `/r`. -/
def mRoot : IgnoreManager := ⟨"/r", [], false, fun _ => false⟩

def cfgA : WatcherConfig := ⟨"demo", 60, 600, true, true, true, true⟩

/-- Notifications and auto-push disabled. -/
def cfgQuiet : WatcherConfig := ⟨"demo", 60, 600, false, false, false, false⟩

/-- A handler with no submodules watching `/w`. -/
def hA : Handler := ⟨cfgA, "/w", [], mNone⟩

/-- A handler for root `/r` with one submodule `/r/sub`. -/
def hSub : Handler := ⟨cfgA, "/r", ["/r/sub"], mRoot⟩

/-- `hSub` with notifications and auto-push disabled. -/
def hSubQuiet : Handler := ⟨cfgQuiet, "/r", ["/r/sub"], mRoot⟩

/-- A git oracle on which every command succeeds with empty output. -/
def gOK : Git := ⟨fun _ _ => ⟨0, "", ""⟩⟩

/-- The empty engine state. -/
def stEmpty : WatcherState := ⟨[], [], none⟩

/-- A state with an armed timer for `/w` but no pending entry. -/
def stTimerOnly : WatcherState := ⟨[], [("/w", ⟨0, 60, false⟩)], none⟩

/-- A burst of three accepted events for the same target. -/
def evsBurst : List (String × Nat) := [("/w/a.txt", 10), ("/w/b.txt", 30), ("/w/a.txt", 50)]

/-- A moved event without a `dest_path` attribute. -/
def evMoveNoDest : FSEvent := ⟨"/w/a.txt", none, false⟩

/-- A moved event with a destination. -/
def evMove : FSEvent := ⟨"/w/a.txt", some "/w/b.txt", false⟩

/-- Oracle for the startup path: the root is clean, the submodule
`/r/sub` has one modified file, and every git command succeeds. -/
def gExist : Git :=
  ⟨fun cmd cwd =>
    if cwd = "/r/sub" ∧ cmd = ["git", "status", "--porcelain"] then ⟨0, "M  a.txt", ""⟩
    else ⟨0, "", ""⟩⟩

/-- Oracle on which `git diff --cached --quiet` reports staged changes
(exit 1) and everything else succeeds. -/
def gStaged : Git :=
  ⟨fun cmd _ =>
    if cmd = ["git", "diff", "--cached", "--quiet"] then ⟨1, "", ""⟩
    else ⟨0, "", ""⟩⟩

/-- Oracle for the poller on which the local and remote heads differ but
`git rev-list --count` fails. -/
def gCountFails : Git :=
  ⟨fun cmd _ =>
    if cmd = ["git", "rev-parse", "HEAD"] then ⟨0, "aaa\n", ""⟩
    else if cmd = ["git", "branch", "--show-current"] then ⟨0, "main\n", ""⟩
    else if cmd = ["git", "rev-parse", "origin/main"] then ⟨0, "bbb\n", ""⟩
    else if cmd = ["git", "rev-list", "--count", "aaa..bbb"] then ⟨128, "", "fatal: bad revision"⟩
    else ⟨0, "", ""⟩⟩

/-- Oracle for the poller on which the remote is two commits ahead and
every command succeeds. -/
def gPoll : Git :=
  ⟨fun cmd _ =>
    if cmd = ["git", "rev-parse", "HEAD"] then ⟨0, "aaa\n", ""⟩
    else if cmd = ["git", "branch", "--show-current"] then ⟨0, "main\n", ""⟩
    else if cmd = ["git", "rev-parse", "origin/main"] then ⟨0, "bbb\n", ""⟩
    else if cmd = ["git", "rev-list", "--count", "aaa..bbb"] then ⟨0, "2\n", ""⟩
    else ⟨0, "", ""⟩⟩

/-! ## Sanity checks of the embedding (agreeing with CPython's
`fnmatch`/`pathlib` on the same inputs) -/

example : matches_pattern "build/output.txt" "build/" = true := by decide
example : matches_pattern "src/build/x.txt" "build/" = false := by decide
example : matches_pattern "my_build/file.txt" "build/" = false := by decide
example : matches_pattern "a/b/notes.log" "*.log" = true := by decide
example : fnmatch "cab".data "c[a-z]b".data = true := by decide
example : fnmatch "cAb".data "c[a-z]b".data = false := by decide
example : fnmatch "a/b".data "a*b".data = true := by decide
example : fnmatch "]".data "[]]".data = true := by decide
example : fnmatch "ax".data "a[!b]".data = true := by decide
example : fnmatch "ab".data "a[!b]".data = false := by decide

/-! ## Helper lemmas -/

theorem alookup_aset_self {α : Type} (l : List (String × α)) (k : String) (v : α) :
    alookup (aset l k v) k = some v := by
  induction l with
  | nil => simp [aset, alookup]
  | cons hd tl ih =>
    obtain ⟨k', w⟩ := hd
    by_cases hk : k' = k
    · subst hk; simp [aset, alookup]
    · simp [aset, alookup, hk, ih]

theorem alookup_aset_ne {α : Type} (l : List (String × α)) (k k' : String) (v : α)
    (h : k ≠ k') : alookup (aset l k v) k' = alookup l k' := by
  induction l with
  | nil => simp [aset, alookup, h]
  | cons hd tl ih =>
    obtain ⟨k'', w⟩ := hd
    by_cases hk : k'' = k
    · subst hk; simp [aset, alookup, h]
    · simp only [aset, hk, if_false, alookup]
      by_cases hk2 : k'' = k'
      · simp [hk2]
      · simp [hk2, ih]

theorem mem_insertStr {s : List String} {x q : String} (h : q ∈ insertStr s x) :
    q ∈ s ∨ q = x := by
  unfold insertStr at h
  by_cases hx : x ∈ s
  · simp only [hx, if_true] at h; exact Or.inl h
  · simp only [hx, if_false, List.mem_cons] at h
    exact h.elim (fun e => Or.inr e) Or.inl

theorem trimChars_cons_not_space {c : Char} (hc : isSpaceChar c = false)
    (rest : List Char) : trimChars (c :: rest) = c :: trimRight rest := by
  unfold trimChars trimRight
  rw [List.dropWhile_cons]
  simp only [hc, Bool.false_eq_true, if_false, List.reverse_cons, List.dropWhile_append]
  by_cases hd : (rest.reverse.dropWhile isSpaceChar).isEmpty
  · have he : rest.reverse.dropWhile isSpaceChar = [] := by
      simpa [List.isEmpty_iff] using hd
    simp [hd, he, List.dropWhile_cons, hc]
  · simp [hd]

/-- A `!`-pattern never matches: the matcher returns before any glob test. -/
theorem matches_pattern_bang (fp : String) (rest : List Char) :
    matches_pattern fp (String.mk ('!' :: rest)) = false := by
  have hpat : trimChars ('!' :: rest) = '!' :: trimRight rest :=
    trimChars_cons_not_space (show isSpaceChar '!' = false by decide) rest
  simp only [matches_pattern, String.data, hpat]
  rfl

/-- `handle_file_change` on an accepted event, unfolded. -/
theorem handle_file_change_accept (h : Handler) (st : WatcherState) (p : String) (now : Nat)
    (hacc : should_ignore h.ignore p = false) :
    handle_file_change h st p now =
      ({ st with
          pending_commits :=
            aset st.pending_commits (classifyKey h p)
              (insertStr (pendingPaths st (classifyKey h p)) p),
          commit_timers :=
            aset st.commit_timers (classifyKey h p) ⟨now, h.config.commit_delay, false⟩ },
        alookup st.commit_timers (classifyKey h p)) := by
  simp [handle_file_change, hacc, pendingPaths]

/-- After a run of accepted events for `dirKey`, the armed timer is the
fold of the events over the starting timer, and every event cancelled
exactly one timer. -/
theorem processEvents_burst (h : Handler) (dirKey : String) :
    ∀ (evs : List (String × Nat)) (st : WatcherState) (t0 : TimerH),
      (∀ e ∈ evs, should_ignore h.ignore e.1 = false ∧ classifyKey h e.1 = dirKey) →
      alookup st.commit_timers dirKey = some t0 →
      alookup (processEvents h st evs).1.commit_timers dirKey =
        some (evs.foldl (fun _ e => (⟨e.2, h.config.commit_delay, false⟩ : TimerH)) t0) ∧
      (processEvents h st evs).2.length = evs.length := by
  intro evs
  induction evs with
  | nil => intro st t0 _ h0; simpa [processEvents] using h0
  | cons e rest ih =>
    intro st t0 hall h0
    obtain ⟨hacc, hkey⟩ := hall e (List.mem_cons_self e rest)
    have hrest : ∀ e' ∈ rest, should_ignore h.ignore e'.1 = false ∧ classifyKey h e'.1 = dirKey :=
      fun e' he' => hall e' (List.mem_cons_of_mem e he')
    obtain ⟨p, t⟩ := e
    have hstep := handle_file_change_accept h st p t hacc
    simp only at hkey
    have hlook1 :
        alookup (handle_file_change h st p t).1.commit_timers dirKey =
          some ⟨t, h.config.commit_delay, false⟩ := by
      rw [hstep]; simp only [hkey]; exact alookup_aset_self _ _ _
    have hcanc : (handle_file_change h st p t).2 = some t0 := by
      rw [hstep]; simp only [hkey]; exact h0
    obtain ⟨ih1, ih2⟩ := ih (handle_file_change h st p t).1 ⟨t, h.config.commit_delay, false⟩
      hrest hlook1
    constructor
    · simpa [processEvents, List.foldl_cons] using ih1
    · simp [processEvents, hcanc, ih2]

theorem foldl_const_last {α β : Type} (f : α → β) :
    ∀ (l : List α) (hne : l ≠ []) (b : β),
      l.foldl (fun _ e => f e) b = f (l.getLast hne) := by
  intro l
  induction l with
  | nil => intro hne; exact absurd rfl hne
  | cons a rest ih =>
    intro hne b
    cases rest with
    | nil => simp
    | cons a2 rest2 =>
      have hne2 : a2 :: rest2 ≠ [] := by simp
      rw [List.foldl_cons, ih hne2 (f a), List.getLast_cons hne2]

/-- Membership in the pending set after handling one event. -/
theorem handle_file_change_pending_mem (h : Handler) (st : WatcherState) (p : String)
    (now : Nat) (k q : String)
    (hq : q ∈ pendingPaths (handle_file_change h st p now).1 k) :
    q ∈ pendingPaths st k ∨ q = p := by
  by_cases hacc : should_ignore h.ignore p = true
  · left
    simpa [handle_file_change, hacc] using hq
  · rw [handle_file_change_accept h st p now (by simpa using hacc)] at hq
    by_cases hk : classifyKey h p = k
    · rw [← hk] at hq
      unfold pendingPaths at hq
      rw [alookup_aset_self] at hq
      simp only [Option.getD_some] at hq
      rw [hk] at hq
      exact mem_insertStr hq
    · left
      unfold pendingPaths at hq ⊢
      rwa [alookup_aset_ne _ _ _ _ hk] at hq

/-! ## The claims -/

/-- C10: when `_execute_delayed_commit` fires for a directory key with no
pending entry, it performs no git operation and leaves both the
pending-commits map and the timer map unchanged. -/
theorem c10_execute_delayed_commit_missing_key (h : Handler) (git : Git)
    (st : WatcherState) (dir_key : String)
    (hmiss : alookup st.pending_commits dir_key = none) :
    (execute_delayed_commit h git st dir_key).2 = [] ∧
    (execute_delayed_commit h git st dir_key).1.pending_commits = st.pending_commits ∧
    (execute_delayed_commit h git st dir_key).1.commit_timers = st.commit_timers := by
  simp [execute_delayed_commit, hmiss]

/-- C10 witness: firing for `/w`, which has an armed timer but no pending
entry, changes nothing — the timer entry survives untouched. -/
theorem c10_witness :
    (execute_delayed_commit hA gOK stTimerOnly "/w").2 = [] ∧
    (execute_delayed_commit hA gOK stTimerOnly "/w").1.pending_commits = [] ∧
    (execute_delayed_commit hA gOK stTimerOnly "/w").1.commit_timers =
      [("/w", ⟨0, 60, false⟩)] := by
  have H := c10_execute_delayed_commit_missing_key hA gOK stTimerOnly "/w" rfl
  exact ⟨H.1, H.2.1, H.2.2⟩

/-- C4: after `stop()` the per-target timer map is empty, every commit
timer and the fetch timer are disarmed (so no commit or poll can begin
by a timer firing), while `pending_commits` — the data an in-flight,
already-started commit reads — is untouched. -/
theorem c4_stop_cancels_all_timers (h : Handler) (git : Git) (st : WatcherState) :
    (stop st).commit_timers = [] ∧
    (∀ key, commitTimerArmed (stop st) key = false) ∧
    fetchTimerArmed (stop st) = false ∧
    (∀ key, fireCommitTimer h git (stop st) key = none) ∧
    (stop st).pending_commits = st.pending_commits := by
  refine ⟨rfl, fun key => rfl, ?_, fun key => rfl, rfl⟩
  unfold fetchTimerArmed stop
  cases st.fetch_timer <;> simp

/-- C8: a pattern beginning with `!` is recognised but never matches any
path, and adding such a pattern to a manager's pattern list changes no
`should_ignore` decision. -/
theorem c8_negation_patterns_never_match :
    (∀ (fp : String) (rest : List Char),
      matches_pattern fp (String.mk ('!' :: rest)) = false) ∧
    (∀ (m : IgnoreManager) (rest : List Char) (p : String),
      should_ignore
        ⟨m.watch_dir, String.mk ('!' :: rest) :: m.all_patterns,
          m.respect_gitignore, m.gitignoreMatch⟩ p = should_ignore m p) := by
  refine ⟨matches_pattern_bang, ?_⟩
  intro m rest p
  unfold should_ignore
  cases relPath m.watch_dir p with
  | none => rfl
  | some rel => simp [matches_pattern_bang]

/-- C2 counterexample: with the single pattern `build/`, the path
`src/build/x.txt` (relative form of `/w/src/build/x.txt`) is **not**
ignored, although the claim says any path-prefix segment matching the
pattern is. -/
theorem c2_counterexample :
    matches_pattern "src/build/x.txt" "build/" = false ∧
    should_ignore mBuild "/w/src/build/x.txt" = false := by
  constructor <;> decide

/-- C2 (amended): a trailing-slash pattern matches iff some cumulative
slash-joined prefix of the path's components glob-matches the pattern
body, so `build/` ignores `build/output.txt` but neither
`src/build/x.txt` nor `my_build/file.txt`. -/
theorem c2_directory_pattern_semantics :
    (∀ fp : String, matches_pattern fp "build/" = dirPatternMatches fp "build".data) ∧
    should_ignore mBuild "/w/build/output.txt" = true ∧
    should_ignore mBuild "/w/src/build/x.txt" = false ∧
    should_ignore mBuild "/w/my_build/file.txt" = false := by
  refine ⟨fun fp => rfl, ?_, ?_, ?_⟩ <;> decide

/-- C3 counterexample: on empty porcelain output the synthesiser returns
`Update files`, not the claimed fallback `Auto-commit: updated files`. -/
theorem c3_counterexample :
    create_squashed_commit_message ⟨0, "", ""⟩ = "Update files" ∧
    ("Update files" : String) ≠ "Auto-commit: updated files" := by
  constructor <;> decide

/-- C3 (amended): the message is a deterministic function of the
porcelain status result — `Update files` when the status command failed
or its output is empty; otherwise the non-zero categories counted from
the stripped status lines, joined in the fixed order
created/modified/deleted/renamed with `N file(s)`, falling back to
`Auto-commit: updated files` when no line matches a counted code —
together with the spec's own examples. -/
theorem c3_commit_message_synthesis :
    (∀ res : GitResult,
      create_squashed_commit_message res =
        if res.returncode ≠ 0 ∨ statusLines res.stdout = [] then "Update files"
        else
          specMessage (countCreated (statusLines res.stdout))
            (countModified (statusLines res.stdout))
            (countDeleted (statusLines res.stdout))
            (countRenamed (statusLines res.stdout))) ∧
    create_squashed_commit_message ⟨0, "A  file1", ""⟩ = "Auto-commit: created 1 file" ∧
    create_squashed_commit_message ⟨0, "M  file1\nM  file2\nD  file3", ""⟩ =
      "Auto-commit: modified 2 files, deleted 1 file" ∧
    create_squashed_commit_message ⟨0, "?? newfile", ""⟩ = "Auto-commit: updated files" ∧
    create_squashed_commit_message ⟨0, "", ""⟩ = "Update files" ∧
    create_squashed_commit_message ⟨1, "M  x", ""⟩ = "Update files" := by
  refine ⟨?_, by decide, by decide, by decide, by decide, by decide⟩
  intro res
  by_cases h1 : res.returncode = 0
  · by_cases h2 : statusLines res.stdout = []
    · simp [create_squashed_commit_message, specMessage, h1, h2]
    · have h2b : (statusLines res.stdout).isEmpty = false := by
        simpa [List.isEmpty_iff] using h2
      simp [create_squashed_commit_message, specMessage, h1, h2, h2b]
  · simp [create_squashed_commit_message, h1]

/-- C1: a burst of accepted events for the same directory key, starting
with no armed timer, leaves exactly one armed timer — armed at the last
event with the configured delay, so it fires no earlier than
`commit_delay` after the last event — and every event except the first
cancelled exactly one previously armed timer (last writer sets the
delay). -/
theorem c1_debounce_last_event_wins (h : Handler) (st0 : WatcherState)
    (evs : List (String × Nat)) (dirKey : String) (hne : evs ≠ [])
    (hall : ∀ e ∈ evs, should_ignore h.ignore e.1 = false ∧ classifyKey h e.1 = dirKey)
    (hinit : alookup st0.commit_timers dirKey = none) :
    alookup (processEvents h st0 evs).1.commit_timers dirKey =
      some ⟨(evs.getLast hne).2, h.config.commit_delay, false⟩ ∧
    (processEvents h st0 evs).2.length + 1 = evs.length ∧
    (∀ tm, alookup (processEvents h st0 evs).1.commit_timers dirKey = some tm →
      tm.armedAt + tm.delay = (evs.getLast hne).2 + h.config.commit_delay) := by
  cases evs with
  | nil => exact absurd rfl hne
  | cons e rest =>
    obtain ⟨p, t⟩ := e
    obtain ⟨hacc, hkey⟩ := hall (p, t) (List.mem_cons_self (p, t) rest)
    simp only at hacc hkey
    have hrest : ∀ e' ∈ rest,
        should_ignore h.ignore e'.1 = false ∧ classifyKey h e'.1 = dirKey :=
      fun e' he' => hall e' (List.mem_cons_of_mem (p, t) he')
    have hstep := handle_file_change_accept h st0 p t hacc
    have hlook1 :
        alookup (handle_file_change h st0 p t).1.commit_timers dirKey =
          some ⟨t, h.config.commit_delay, false⟩ := by
      rw [hstep]; simp only [hkey]; exact alookup_aset_self _ _ _
    have hcanc : (handle_file_change h st0 p t).2 = none := by
      rw [hstep]; simp only [hkey]; exact hinit
    obtain ⟨hb1, hb2⟩ := processEvents_burst h dirKey rest (handle_file_change h st0 p t).1
      ⟨t, h.config.commit_delay, false⟩ hrest hlook1
    have hfst : (processEvents h st0 ((p, t) :: rest)).1 =
        (processEvents h (handle_file_change h st0 p t).1 rest).1 := by
      simp [processEvents]
    have hfold :
        rest.foldl (fun _ e => (⟨e.2, h.config.commit_delay, false⟩ : TimerH))
            ⟨t, h.config.commit_delay, false⟩ =
          ⟨(((p, t) :: rest).getLast hne).2, h.config.commit_delay, false⟩ := by
      have hc : ((p, t) :: rest).foldl
            (fun _ e => (⟨e.2, h.config.commit_delay, false⟩ : TimerH))
            ⟨t, h.config.commit_delay, false⟩ =
          rest.foldl (fun _ e => (⟨e.2, h.config.commit_delay, false⟩ : TimerH))
            ⟨t, h.config.commit_delay, false⟩ := by
        rw [List.foldl_cons]
      rw [← hc,
        foldl_const_last (fun e => (⟨e.2, h.config.commit_delay, false⟩ : TimerH))
          ((p, t) :: rest) hne]
    have hfinal :
        alookup (processEvents h st0 ((p, t) :: rest)).1.commit_timers dirKey =
          some ⟨(((p, t) :: rest).getLast hne).2, h.config.commit_delay, false⟩ := by
      rw [hfst, hb1, hfold]
    refine ⟨hfinal, ?_, ?_⟩
    · simp [processEvents, hcanc, hb2]
    · intro tm htm
      rw [hfinal] at htm
      cases htm
      rfl

/-- C1 witness: three events at times 10, 30, 50 with delay 60 leave one
timer armed at 50 (firing at 110) and cancelled exactly two timers. -/
theorem c1_witness :
    alookup (processEvents hA stEmpty evsBurst).1.commit_timers "/w" =
      some ⟨50, 60, false⟩ ∧
    (processEvents hA stEmpty evsBurst).2.length + 1 = evsBurst.length := by
  have H := c1_debounce_last_event_wins hA stEmpty evsBurst "/w" (by decide) (by decide) rfl
  exact ⟨H.1, H.2.1⟩

/-- C9: `on_moved` drops directory events and events without a
`dest_path`, and otherwise behaves exactly as `_handle_file_change` on
the destination path — in particular only the destination can be added
to any pending set, never the move's source path. -/
theorem c9_on_moved_dest_only (h : Handler) (st : WatcherState) (ev : FSEvent) (now : Nat) :
    (ev.is_directory = true → on_moved h st ev now = (st, none)) ∧
    (ev.is_directory = false → ev.dest_path = none → on_moved h st ev now = (st, none)) ∧
    (∀ d, ev.is_directory = false → ev.dest_path = some d →
      on_moved h st ev now = handle_file_change h st d now ∧
      (∀ k q, q ∈ pendingPaths (on_moved h st ev now).1 k →
        q ∈ pendingPaths st k ∨ q = d)) := by
  refine ⟨?_, ?_, ?_⟩
  · intro hd; simp [on_moved, hd]
  · intro hd hn; simp [on_moved, hd, hn]
  · intro d hd hdp
    have he : on_moved h st ev now = handle_file_change h st d now := by
      simp [on_moved, hd, hdp]
    refine ⟨he, ?_⟩
    intro k q hq
    rw [he] at hq
    exact handle_file_change_pending_mem h st d now k q hq

/-- C9 witness: a moved event without `dest_path` changes nothing, and a
moved event with a destination is handled exactly as a change of the
destination path. -/
theorem c9_witness :
    on_moved hA stEmpty evMoveNoDest 5 = (stEmpty, none) ∧
    on_moved hA stEmpty evMove 5 = handle_file_change hA stEmpty "/w/b.txt" 5 := by
  have H := c9_on_moved_dest_only hA stEmpty evMoveNoDest 5
  have H2 := c9_on_moved_dest_only hA stEmpty evMove 5
  exact ⟨H.2.1 rfl rfl, (H2.2.2 "/w/b.txt" rfl rfl).1⟩

/-- C5 counterexample: at startup with `auto_push` disabled, the
submodule `/r/sub` has pre-existing changes and its commit succeeds, yet
no root reference-update follow-up is attempted (no `git add sub` in
`/r`); moreover the commit message is the fixed
`Auto-commit existing changes in …` string, not the status-derived
message the delayed path would produce for the same status. -/
theorem c5_counterexample :
    commit_existing_changes hSubQuiet gExist =
      [Effect.gitCall ["git", "status", "--porcelain"] "/r",
       Effect.gitCall ["git", "status", "--porcelain"] "/r/sub",
       Effect.gitCall ["git", "add", "."] "/r/sub",
       Effect.gitCall ["git", "commit", "-m", "Auto-commit existing changes in submodule sub"]
         "/r/sub"] ∧
    Effect.gitCall ["git", "add", "sub"] "/r" ∉ commit_existing_changes hSubQuiet gExist ∧
    create_squashed_commit_message (gExist.run ["git", "status", "--porcelain"] "/r/sub") =
      "Auto-commit: modified 1 file" := by
  refine ⟨by decide, by decide, by decide⟩

/-- C5 (amended): at startup the root and then every submodule with
pre-existing changes is staged with `git add .` and committed with the
fixed message `Auto-commit existing changes in <name>` (not the
status-derived message of the delayed path), with notification per
settings; only when `auto_push` is enabled is the commit pushed and, for
a submodule, the root reference-update follow-up triggered. -/
theorem c5_startup_commit_behavior (h : Handler) (git : Git) :
    (commit_existing_changes h git =
      commit_existing_in_repo h git h.repo_dir "main repo" ++
        (h.submodules.map (fun s =>
          commit_existing_in_repo h git s ("submodule " ++ pathNameStr s))).flatten) ∧
    (∀ d n,
      (git.run ["git", "status", "--porcelain"] d).returncode = 0 →
      (trimChars (git.run ["git", "status", "--porcelain"] d).stdout.data).isEmpty = false →
      (git.run ["git", "add", "."] d).returncode = 0 →
      (git.run ["git", "commit", "-m", "Auto-commit existing changes in " ++ n] d).returncode
        = 0 →
      h.config.auto_push = false →
      commit_existing_in_repo h git d n =
        [Effect.gitCall ["git", "status", "--porcelain"] d,
         Effect.gitCall ["git", "add", "."] d,
         Effect.gitCall ["git", "commit", "-m", "Auto-commit existing changes in " ++ n] d] ++
        (if h.config.enable_notifications && h.config.notify_on_commit then
          [send_commit_notification h ("Auto-commit existing changes in " ++ n)] else [])) ∧
    (∀ d n,
      (git.run ["git", "status", "--porcelain"] d).returncode = 0 →
      (trimChars (git.run ["git", "status", "--porcelain"] d).stdout.data).isEmpty = false →
      (git.run ["git", "add", "."] d).returncode = 0 →
      (git.run ["git", "commit", "-m", "Auto-commit existing changes in " ++ n] d).returncode
        = 0 →
      h.config.auto_push = true → d ≠ h.repo_dir →
      commit_existing_in_repo h git d n =
        [Effect.gitCall ["git", "status", "--porcelain"] d,
         Effect.gitCall ["git", "add", "."] d,
         Effect.gitCall ["git", "commit", "-m", "Auto-commit existing changes in " ++ n] d] ++
        (if h.config.enable_notifications && h.config.notify_on_commit then
          [send_commit_notification h ("Auto-commit existing changes in " ++ n)] else []) ++
        push_changes d ++ commit_submodule_update h git d) := by
  refine ⟨rfl, ?_, ?_⟩
  · intro d n h1 h2 h3 h4 hpush
    simp [commit_existing_in_repo, h1, h2, h3, h4, hpush]
  · intro d n h1 h2 h3 h4 hpush hne
    simp [commit_existing_in_repo, h1, h2, h3, h4, hpush, hne]

/-- C5 witness: with `auto_push` enabled, the dirty submodule `/r/sub`
is committed at startup with the fixed message and the follow-up runs. -/
theorem c5_witness :
    commit_existing_in_repo hSub gExist "/r/sub" "submodule sub" =
      [Effect.gitCall ["git", "status", "--porcelain"] "/r/sub",
       Effect.gitCall ["git", "add", "."] "/r/sub",
       Effect.gitCall ["git", "commit", "-m",
         "Auto-commit existing changes in " ++ "submodule sub"] "/r/sub"] ++
      (if hSub.config.enable_notifications && hSub.config.notify_on_commit then
        [send_commit_notification hSub ("Auto-commit existing changes in " ++ "submodule sub")]
       else []) ++
      push_changes "/r/sub" ++ commit_submodule_update hSub gExist "/r/sub" := by
  exact (c5_startup_commit_behavior hSub gExist).2.2 "/r/sub" "submodule sub"
    (by decide) (by decide) (by decide) (by decide) rfl (by decide)

/-- C6: for a submodule key, the delayed commit dispatches to the
submodule path; after a successful submodule commit exactly one
follow-up (`_commit_submodule_update`) is appended, and none after a
failed commit; within the follow-up, given the staging of the
submodule's relative path succeeds, a root commit is attempted iff
`git diff --cached --quiet` reports something staged, and a root push
happens iff additionally the root commit succeeded and `auto_push` is
on. -/
theorem c6_submodule_followup (h : Handler) (git : Git) (sub : String)
    (files : List String) :
    (∀ st fs, sub ∈ h.submodules → alookup st.pending_commits sub = some fs →
      (execute_delayed_commit h git st sub).2 = commit_squashed_submodule h git sub fs) ∧
    ((git.run ["git", "add", "."] sub).returncode = 0 →
     (git.run ["git", "commit", "-m",
        create_squashed_commit_message (git.run ["git", "status", "--porcelain"] sub)]
        sub).returncode = 0 →
      commit_squashed_submodule h git sub files =
        [Effect.gitCall ["git", "add", "."] sub,
         Effect.gitCall ["git", "status", "--porcelain"] sub,
         Effect.gitCall ["git", "commit", "-m",
           create_squashed_commit_message (git.run ["git", "status", "--porcelain"] sub)]
           sub] ++
        (if h.config.auto_push then push_changes sub else []) ++
        commit_submodule_update h git sub) ∧
    ((git.run ["git", "add", "."] sub).returncode = 0 →
     (git.run ["git", "commit", "-m",
        create_squashed_commit_message (git.run ["git", "status", "--porcelain"] sub)]
        sub).returncode ≠ 0 →
      commit_squashed_submodule h git sub files =
        [Effect.gitCall ["git", "add", "."] sub,
         Effect.gitCall ["git", "status", "--porcelain"] sub,
         Effect.gitCall ["git", "commit", "-m",
           create_squashed_commit_message (git.run ["git", "status", "--porcelain"] sub)]
           sub]) ∧
    ((git.run ["git", "add", relPathStrD h.repo_dir sub] h.repo_dir).returncode = 0 →
      ((Effect.gitCall ["git", "commit", "-m", "Update " ++ pathNameStr sub ++ " submodule"]
          h.repo_dir ∈ commit_submodule_update h git sub) ↔
        (git.run ["git", "diff", "--cached", "--quiet"] h.repo_dir).returncode ≠ 0)) ∧
    ((git.run ["git", "add", relPathStrD h.repo_dir sub] h.repo_dir).returncode = 0 →
      ((Effect.gitCall ["git", "push"] h.repo_dir ∈ commit_submodule_update h git sub) ↔
        ((git.run ["git", "diff", "--cached", "--quiet"] h.repo_dir).returncode ≠ 0 ∧
         (git.run ["git", "commit", "-m", "Update " ++ pathNameStr sub ++ " submodule"]
           h.repo_dir).returncode = 0 ∧
         h.config.auto_push = true))) := by
  refine ⟨?_, ?_, ?_, ?_, ?_⟩
  · intro st fs hmem hlook
    simp [execute_delayed_commit, hlook, hmem]
  · intro h1 h2
    simp [commit_squashed_submodule, h1, h2]
  · intro h1 h2
    simp [commit_squashed_submodule, h1, h2]
  · intro hstage
    by_cases hq : (git.run ["git", "diff", "--cached", "--quiet"] h.repo_dir).returncode = 0
    · simp [commit_submodule_update, hstage, hq]
    · by_cases hc : (git.run ["git", "commit", "-m",
          "Update " ++ pathNameStr sub ++ " submodule"] h.repo_dir).returncode = 0
      · simp [commit_submodule_update, hstage, hq, hc]
      · simp [commit_submodule_update, hstage, hq, hc]
  · intro hstage
    by_cases hq : (git.run ["git", "diff", "--cached", "--quiet"] h.repo_dir).returncode = 0
    · simp [commit_submodule_update, hstage, hq]
    · by_cases hc : (git.run ["git", "commit", "-m",
          "Update " ++ pathNameStr sub ++ " submodule"] h.repo_dir).returncode = 0
      · by_cases hp : h.config.auto_push
        · simp [commit_submodule_update, push_changes, hstage, hq, hc, hp,
            send_commit_notification]
        · simp [commit_submodule_update, push_changes, hstage, hq, hc, hp,
            send_commit_notification]
      · simp [commit_submodule_update, hstage, hq, hc]

/-- C6 witness: on an oracle where `git diff --cached --quiet` reports
staged changes, a successful submodule commit is followed by exactly one
follow-up and the follow-up commits the pointer update in the root. -/
theorem c6_witness :
    commit_squashed_submodule hSub gStaged "/r/sub" [] =
      [Effect.gitCall ["git", "add", "."] "/r/sub",
       Effect.gitCall ["git", "status", "--porcelain"] "/r/sub",
       Effect.gitCall ["git", "commit", "-m",
         create_squashed_commit_message
           (gStaged.run ["git", "status", "--porcelain"] "/r/sub")] "/r/sub"] ++
      (if hSub.config.auto_push then push_changes "/r/sub" else []) ++
      commit_submodule_update hSub gStaged "/r/sub" ∧
    (Effect.gitCall ["git", "commit", "-m", "Update " ++ pathNameStr "/r/sub" ++ " submodule"]
      "/r" ∈ commit_submodule_update hSub gStaged "/r/sub") := by
  have H := c6_submodule_followup hSub gStaged "/r/sub" ([] : List String)
  exact ⟨H.2.1 (by decide) (by decide), (H.2.2.2.1 (by decide)).mpr (by decide)⟩

/-- C7 counterexample: the local and remote heads differ after a
successful fetch, yet because `git rev-list --count` fails the poller
reports nothing — contradicting the claimed "changed iff heads differ"
biconditional whose failing steps do not include the rev-list count. -/
theorem c7_counterexample :
    (fetch_and_check_changes gCountFails "/r").1 = none ∧
    stripStr (gCountFails.run ["git", "rev-parse", "HEAD"] "/r").stdout ≠
      stripStr (gCountFails.run ["git", "rev-parse", "origin/main"] "/r").stdout ∧
    (gCountFails.run ["git", "fetch"] "/r").returncode = 0 ∧
    (gCountFails.run ["git", "branch", "--show-current"] "/r").returncode = 0 := by
  refine ⟨by decide, by decide, by decide, by decide⟩

set_option maxHeartbeats 1000000 in
/-- C7 (amended): the poller reports a target as changed iff the
rev-parse of `HEAD`, the fetch, the branch resolution (with a non-empty
branch), the rev-parse of `origin/<branch>` **and the rev-list count**
all succeed and the two heads differ; the report is then
`"<n> new commit(s)"` with `n` the stripped rev-list output; and the
poll cycle always re-arms the fetch timer. -/
theorem c7_poller_report (git : Git) (d : String)
    (headRes fetchRes branchRes remoteRes countRes : GitResult)
    (e1 : headRes = git.run ["git", "rev-parse", "HEAD"] d)
    (e2 : fetchRes = git.run ["git", "fetch"] d)
    (e3 : branchRes = git.run ["git", "branch", "--show-current"] d)
    (e4 : remoteRes = git.run ["git", "rev-parse", "origin/" ++ stripStr branchRes.stdout] d)
    (e5 : countRes = git.run ["git", "rev-list", "--count",
            stripStr headRes.stdout ++ ".." ++ stripStr remoteRes.stdout] d) :
    ((fetch_and_check_changes git d).1.isSome = true ↔
      (headRes.returncode = 0 ∧ fetchRes.returncode = 0 ∧ branchRes.returncode = 0 ∧
       stripStr branchRes.stdout ≠ "" ∧ remoteRes.returncode = 0 ∧
       stripStr headRes.stdout ≠ stripStr remoteRes.stdout ∧ countRes.returncode = 0)) ∧
    (∀ s, (fetch_and_check_changes git d).1 = some s →
      s = stripStr countRes.stdout ++ " new commit" ++
        (if stripStr countRes.stdout ≠ "1" then "s" else "")) ∧
    (∀ (h : Handler) (st : WatcherState) (now : Nat),
      (periodic_fetch h git st now).1 = start_fetch_timer h st now) := by
  subst e5 e4 e3 e2 e1
  refine ⟨?_, ?_, fun h st now => rfl⟩
  · simp only [fetch_and_check_changes]
    split_ifs <;> simp_all
  · intro s hs
    simp only [fetch_and_check_changes] at hs
    split_ifs at hs ⊢ <;>
      first
        | exact Option.noConfusion hs
        | exact (Option.some.inj hs).symm

/-- C7 witness: on an oracle where every step succeeds and the remote is
two commits ahead, the poller reports, and any report equals
`2 new commits`. -/
theorem c7_witness :
    (fetch_and_check_changes gPoll "/r").1.isSome = true ∧
    (∀ s, (fetch_and_check_changes gPoll "/r").1 = some s → s = "2 new commits") := by
  have H := c7_poller_report gPoll "/r" _ _ _ _ _ rfl rfl rfl rfl rfl
  constructor
  · exact H.1.mpr (by decide)
  · intro s hs
    have hv := H.2.1 s hs
    rw [hv]
    decide

end Watcher
